import Mathlib

/-!
Verification development for the invoice field-extraction engine
(`extractor.py`): the normalizers (`normalizar_numero`, `normalizar_fecha`,
`normalizar_importe`), the amount extractor (`extraer_importes_universal`)
and the record assembler (`extraer_datos_factura_completo`).

Embedding conventions:
* Python `str` values are `List Char` (sequences of Unicode code points).
* Python `float` amounts are modelled as exact rationals `ℚ`: every numeric
  string handled by the code is a finite decimal, which the embedding parses
  exactly.  Python's binary doubles approximate these values; none of the
  properties below depends on that approximation.
* `None` / parse failure is `Option.none`; no exceptional control flow exists
  in the embedding, mirroring the code's policy that every failure degrades
  to a null/empty field.
* Python dicts with string keys are association lists in insertion order
  (`Dict` below), with lookup and in-place update mirroring dict semantics.
* The regular expressions of the source are transcribed into a small `Regex`
  syntax whose matcher `Regex.run` reproduces Python's backtracking
  preferences (leftmost position, alternatives left to right, greedy `*`/`?`
  over character classes, non-greedy `.*?`).  Every pattern of the source has
  the shape "prefix regex, then one capturing group, then nothing", so a
  search returns the preferred capture of the leftmost successful position.
* Character classes `\w`, `\d`, `\s` are modelled over ASCII (the inputs of
  all claims are ASCII; `IGNORECASE` is modelled by ASCII case folding).
-/

/-- Python `\s` (ASCII range): space, tab, newline, carriage return,
vertical tab, form feed. -/
def esEspacio (c : Char) : Bool :=
  c = ' ' || c = '\t' || c = '\n' || c = '\r' || c = '\x0b' || c = '\x0c'

/-- Python `\w` (ASCII range): letters, digits, underscore. -/
def esWord (c : Char) : Bool :=
  c.isAlphanum || c = '_'

/-- Characters of the amount-token class `[\d.,]`. -/
def esImpChar (c : Char) : Bool :=
  c.isDigit || c = '.' || c = ','

/-- Characters of the date class `[\d/\.-]`. -/
def esFechaChar (c : Char) : Bool :=
  c.isDigit || c = '/' || c = '.' || c = '-'

/-- Python `str.strip()`: drop leading and trailing whitespace. -/
def pyStrip (s : List Char) : List Char :=
  ((s.dropWhile esEspacio).reverse.dropWhile esEspacio).reverse

/-- `normalizar_numero` (extractor.py line 34):
`re.sub(r'[^\w\-]', '', str(numero).strip()) if numero else ""`. -/
def normalizar_numero (numero : List Char) : List Char :=
  if numero = [] then []
  else (pyStrip numero).filter (fun c => esWord c || c = '-')

/-- `normalizar_fecha` (extractor.py lines 37-40):
keep `[\d/.-]`, truncate to 10 characters; empty input yields `""`. -/
def normalizar_fecha (fecha : List Char) : List Char :=
  if fecha = [] then []
  else (fecha.filter esFechaChar).take 10

/-- Value of a digit string read in base 10 (most significant first). -/
def digitsVal (l : List Char) : ℕ :=
  l.foldl (fun a c => 10 * a + (c.toNat - '0'.toNat)) 0

/-- Exact value of a decimal string `digits [ '.' digits ]`:
`ent + frac / 10 ^ |frac|`, built as a single normalized fraction. -/
def valorDecimal (s : List Char) : ℚ :=
  let ent := s.takeWhile (fun c => !(c = '.'))
  let frac := (s.dropWhile (fun c => !(c = '.'))).drop 1
  mkRat (digitsVal ent * 10 ^ frac.length + digitsVal frac) (10 ^ frac.length)

/-- Python `float()` restricted to the strings this program feeds it: after
the cleanups of `normalizar_importe` only digits and dots remain, and on such
strings `float` succeeds exactly when there is at most one dot and at least
one digit.  Any other character makes the parse fail (`ValueError`, caught by
the source and turned into `None`). -/
def pyFloat? (s : List Char) : Option ℚ :=
  if s.all (fun c => c.isDigit || c = '.') && s.count '.' ≤ 1 && s.any Char.isDigit
  then some (valorDecimal s)
  else none

/-- `normalizar_importe` (extractor.py lines 42-51): strip, remove the
characters of the class `[€EUR\s€]` (the euro sign, the uppercase letters
`E` `U` `R`, whitespace), replace `,` by `.`, keep only `[\d.,]`, then parse
as a number; empty input or parse failure yields `None`. -/
def normalizar_importe (importe : List Char) : Option ℚ :=
  if importe = [] then none
  else
    let s1 := (pyStrip importe).filter
      (fun c => !(c = '€' || c = 'E' || c = 'U' || c = 'R' || esEspacio c))
    let s2 := (s1.map (fun c => if c = ',' then '.' else c)).filter esImpChar
    pyFloat? s2

/-! ### A small backtracking regex core

`Regex.run r s` returns the list of possible remainders of `s` after `r`
has consumed a prefix, in Python's backtracking preference order. -/

inductive Regex where
  /-- empty pattern -/
  | eps : Regex
  /-- literal character sequence; `ci` selects `re.IGNORECASE` (ASCII fold) -/
  | lit : Bool → List Char → Regex
  /-- single-character class `[...]` -/
  | cls : (Char → Bool) → Regex
  /-- concatenation -/
  | seq : Regex → Regex → Regex
  /-- alternation `a|b`, left preferred -/
  | alt : Regex → Regex → Regex
  /-- greedy option `a?` -/
  | opt : Regex → Regex
  /-- greedy star over a one-character class, e.g. `\s*` -/
  | starCls : (Char → Bool) → Regex
  /-- non-greedy `.*?` under `re.DOTALL` (matches any characters) -/
  | lazyAny : Regex

/-- Case comparison of a pattern character against a subject character. -/
def coincideChar (ci : Bool) (p c : Char) : Bool :=
  if ci then p.toLower == c.toLower else p == c

/-- Consume a literal from the front of the subject. -/
def quitarLiteral (ci : Bool) : List Char → List Char → Option (List Char)
  | [], s => some s
  | _ :: _, [] => none
  | p :: ps, c :: cs =>
      if coincideChar ci p c then quitarLiteral ci ps cs else none

/-- Remainders of a greedy class star, longest consumption first. -/
def greedySuffixes (p : Char → Bool) : List Char → List (List Char)
  | [] => [[]]
  | c :: t => if p c then greedySuffixes p t ++ [c :: t] else [c :: t]

/-- All suffixes, shortest consumption first (non-greedy `.*?`). -/
def allSuffixes : List Char → List (List Char)
  | [] => [[]]
  | c :: t => (c :: t) :: allSuffixes t

/-- Remainders after matching `r` at the front of `s`, in backtracking
preference order. -/
def Regex.run : Regex → List Char → List (List Char)
  | .eps, s => [s]
  | .lit ci cs, s =>
      match quitarLiteral ci cs s with
      | some r => [r]
      | none => []
  | .cls p, s =>
      match s with
      | c :: t => if p c then [t] else []
      | [] => []
  | .seq a b, s => (Regex.run a s).flatMap (Regex.run b)
  | .alt a b, s => Regex.run a s ++ Regex.run b s
  | .opt a, s => Regex.run a s ++ [s]
  | .starCls p, s => greedySuffixes p s
  | .lazyAny, s => allSuffixes s

/-- First `some` produced by `f` along a list. -/
def primerResultado (f : α → Option β) : List α → Option β
  | [] => none
  | a :: t =>
      match f a with
      | some b => some b
      | none => primerResultado f t

/-- Try the pattern at the current position: the prefix regex may consume any
of its preferred splits; the capture grabber must succeed on the remainder. -/
def searchAt (pre : Regex) (grab : List Char → Option (List Char))
    (s : List Char) : Option (List Char) :=
  primerResultado grab (pre.run s)

/-- `re.search` for a pattern of shape `pre ( group )`: scan start positions
left to right, return the capture of the first successful one. -/
def reSearch (pre : Regex) (grab : List Char → Option (List Char)) :
    List Char → Option (List Char)
  | [] => searchAt pre grab []
  | c :: t =>
      match searchAt pre grab (c :: t) with
      | some g => some g
      | none => reSearch pre grab t

/-- Capture of a greedy one-or-more class group such as `([\d.,]+)` or
`(\w+)` with nothing after it: the maximal nonempty run. -/
def grabPlus (p : Char → Bool) (s : List Char) : Option (List Char) :=
  if (s.takeWhile p).isEmpty then none else some (s.takeWhile p)

/-- Capture of `([\d/\.-]{8,10})` with nothing after it: greedy, so the run
truncated to 10, provided at least 8 class characters are available. -/
def grabFecha (s : List Char) : Option (List Char) :=
  let r := s.takeWhile esFechaChar
  if 8 ≤ r.length then some (r.take 10) else none

/-- Capture of `([A-Z]\d{8}[A-Z]?)` (case-insensitive): one letter, exactly
8 digits, a greedy optional trailing letter. -/
def grabNif (s : List Char) : Option (List Char) :=
  match s with
  | [] => none
  | a :: rest =>
      if a.isAlpha then
        let ds := rest.take 8
        if ds.length = 8 && ds.all Char.isDigit then
          match rest.drop 8 with
          | b :: _ => if b.isAlpha then some (a :: ds ++ [b]) else some (a :: ds)
          | [] => some (a :: ds)
        else none
      else none

/-! ### The amount patterns of `extraer_importes_universal` (lines 64-77)

All seven patterns share the capturing group `([\d.,]+)` and the flags
`re.IGNORECASE | re.DOTALL`. -/

/-- `\s*` -/
def wsStar : Regex := Regex.starCls esEspacio

/-- `\s+` -/
def wsPlus : Regex := Regex.seq (Regex.cls esEspacio) wsStar

/-- `\s*[:\-\(\)]*\s*`, the separator between a label and its amount. -/
def sepImporte : Regex :=
  Regex.seq wsStar (Regex.seq
    (Regex.starCls (fun c => c = ':' || c = '-' || c = '(' || c = ')')) wsStar)

/-- `[:\-]?` -/
def sepOpcional : Regex := Regex.opt (Regex.cls (fun c => c = ':' || c = '-'))

/-- Case-insensitive literal. -/
def litCI (s : String) : Regex := Regex.lit true s.toList

/-- Case-sensitive literal. -/
def litCS (s : String) : Regex := Regex.lit false s.toList

/-- Concatenation of a list of regexes. -/
def rseq (l : List Regex) : Regex := l.foldr Regex.seq Regex.eps

/-- `(?:Total\s*(?:factura|a pagar|final|en EUR)?|TOTAL|Importe total)\s*[:\-\(\)]*\s*` -/
def preTotal1 : Regex :=
  Regex.seq
    (Regex.alt
      (rseq [litCI "Total", wsStar,
        Regex.opt (Regex.alt (litCI "factura")
          (Regex.alt (litCI "a pagar") (Regex.alt (litCI "final") (litCI "en EUR"))))])
      (Regex.alt (litCI "TOTAL") (litCI "Importe total")))
    sepImporte

/-- `TOTAL\s*[:\-\(\)]*\s*` -/
def preTotal2 : Regex := Regex.seq (litCI "TOTAL") sepImporte

/-- `(?:Base\s*(?:imponible|imp\.?)|Subtotal|Neto?|IMPORTE\s*\(base imponible\))\s*[:\-\(\)]*\s*` -/
def preBase1 : Regex :=
  Regex.seq
    (Regex.alt
      (rseq [litCI "Base", wsStar,
        Regex.alt (litCI "imponible") (Regex.seq (litCI "imp") (Regex.opt (litCI ".")))])
      (Regex.alt (litCI "Subtotal")
        (Regex.alt (Regex.seq (litCI "Net") (Regex.opt (litCI "o")))
          (rseq [litCI "IMPORTE", wsStar, litCI "(base imponible)"]))))
    sepImporte

/-- `base imponible\).*?` -/
def preBase2 : Regex := Regex.seq (litCI "base imponible)") Regex.lazyAny

/-- `(?:IVA?|I\.V\.A\.?|IMPUESTOS\s*\(21|Impuesto|Cuota IVA)\s*[:\-\(\)]*\s*` -/
def preIva1 : Regex :=
  Regex.seq
    (Regex.alt
      (Regex.seq (litCI "IV") (Regex.opt (litCI "A")))
      (Regex.alt (Regex.seq (litCI "I.V.A") (Regex.opt (litCI ".")))
        (Regex.alt (rseq [litCI "IMPUESTOS", wsStar, litCI "(21"])
          (Regex.alt (litCI "Impuesto") (litCI "Cuota IVA")))))
    sepImporte

/-- `\(21(?:\.00)?%?\s*IVA?\).*?` -/
def preIva2 : Regex :=
  rseq [litCI "(21", Regex.opt (litCI ".00"), Regex.opt (litCI "%"), wsStar,
    litCI "IV", Regex.opt (litCI "A"), litCI ")", Regex.lazyAny]

/-- `I\.V\.A\..*?` -/
def preIva3 : Regex := Regex.seq (litCI "I.V.A.") Regex.lazyAny

/-- `patrones_universal` (lines 64-77): the prioritized (pattern, field)
list, in source order. -/
def patrones_universal : List (Regex × String) :=
  [(preTotal1, "total"),
   (preTotal2, "total"),
   (preBase1, "base_imponible"),
   (preBase2, "base_imponible"),
   (preIva1, "iva"),
   (preIva2, "iva"),
   (preIva3, "iva")]

/-! ### The supplementary patterns of `extraer_datos_factura_completo`
(lines 105-111 and 119); these are case-sensitive except the NIF one. -/

/-- `N(?:\.°|º)?\s*de?\s*factura\s*[:\-]?\s*` before `(\w+)` (line 105). -/
def preNumero1 : Regex :=
  rseq [litCS "N", Regex.opt (Regex.alt (litCS ".°") (litCS "º")), wsStar,
    litCS "d", Regex.opt (litCS "e"), wsStar, litCS "factura", wsStar,
    sepOpcional, wsStar]

/-- `Número\s*[:\-]?\s*` before `(\w+)` (line 106). -/
def preNumero2 : Regex :=
  rseq [litCS "Número", wsStar, sepOpcional, wsStar]

/-- `Factura[:\-]?\s*` before `(\w+)` (line 107). -/
def preNumero3 : Regex :=
  rseq [litCS "Factura", sepOpcional, wsStar]

/-- `Fecha\s+de?\s*(?:factura|facturación|emisión)\s*[:\-]?\s*` before
`([\d/\.-]{8,10})` (line 111). -/
def preFecha : Regex :=
  rseq [litCS "Fecha", wsPlus, litCS "d", Regex.opt (litCS "e"), wsStar,
    Regex.alt (litCS "factura") (Regex.alt (litCS "facturación") (litCS "emisión")),
    wsStar, sepOpcional, wsStar]

/-- `(?:CIF|NIF|IVA:\s*)` before `([A-Z]\d{8}[A-Z]?)` (line 119),
case-insensitive.  Note: no separator is allowed after `CIF`/`NIF`. -/
def preNif : Regex :=
  Regex.alt (litCI "CIF") (Regex.alt (litCI "NIF") (Regex.seq (litCI "IVA:") wsStar))

/-! ### `extraer_importes_universal` (extractor.py lines 53-96) -/

/-- `zona_resumen = texto[-3000:]` (line 57): the trailing window. -/
def zona_resumen (texto : List Char) : List Char :=
  texto.drop (texto.length - 3000)

/-- `re.findall(r'[\d.,]{3,}(?:[.,]\d{2})?', zona)` (line 60).  With nothing
after the pattern, the greedy `[\d.,]{3,}` consumes a maximal run of the
class; the optional `[.,]\d{2}` can never match afterwards (its first
character belongs to the same class), and runs shorter than 3 fail at every
start position inside them.  So the matches are exactly the maximal runs of
`[\d.,]` of length at least 3, left to right. -/
def todos_importes (zona : List Char) : List (List Char) :=
  let paso := fun c (acc : List Char × List (List Char)) =>
    if esImpChar c then (c :: acc.1, acc.2)
    else ([], (if 3 ≤ acc.1.length then [acc.1] else []) ++ acc.2)
  let fin := zona.foldr paso ([], [])
  (if 3 ≤ fin.1.length then [fin.1] else []) ++ fin.2

/-- Python truthiness of an `Optional[float]`: `None` and `0.0` are falsy. -/
def truthyVal : Option ℚ → Bool
  | none => false
  | some q => !(decide (q = 0))

/-- `importes_normalizados` (line 61): normalize every token, keep the
truthy results (so `None` and `0.0` are dropped). -/
def importes_normalizados (zona : List Char) : List ℚ :=
  (todos_importes zona).filterMap (fun x =>
    match normalizar_importe x with
    | some v => if v = 0 then none else some v
    | none => none)

/-- The dict `resultado`, an insertion-ordered association list. -/
abbrev Dict := List (String × Option ℚ)

/-- Dict lookup (`resultado[campo]`); the keys used are always present. -/
def dictGetD : Dict → String → Option ℚ
  | [], _ => none
  | e :: t, k => if e.1 = k then e.2 else dictGetD t k

/-- Dict assignment (`resultado[campo] = valor`): replace in place if the
key is present, else append. -/
def dictSet : Dict → String → Option ℚ → Dict
  | [], k, v => [(k, v)]
  | e :: t, k, v => if e.1 = k then (k, v) :: t else e :: dictSet t k v

/-- The keys of a dict, in order. -/
def claves (d : Dict) : List String := d.map Prod.fst

/-- `resultado = {'total': None, 'base_imponible': None, 'iva': None}`
(line 79). -/
def resultadoInicial : Dict :=
  [("total", none), ("base_imponible", none), ("iva", none)]

/-- One iteration of the pattern loop (lines 82-87):
`match = re.search(patron, zona_resumen, ...)`;
`if match and not resultado[campo]: valor = normalizar_importe(match.group(1));
if valor: resultado[campo] = valor`. -/
def pasoPatron (zona : List Char) (d : Dict) (pc : Regex × String) : Dict :=
  match reSearch pc.1 (grabPlus esImpChar) zona with
  | none => d
  | some g =>
      if truthyVal (dictGetD d pc.2) then d
      else
        let valor := normalizar_importe g
        if truthyVal valor then dictSet d pc.2 valor else d

/-- The full pattern loop of lines 82-87. -/
def aplicarPatrones (zona : List Char) (d : Dict) (ps : List (Regex × String)) : Dict :=
  ps.foldl (pasoPatron zona) d

/-- The band test `0.7 * resultado['total'] <= imp <= 0.95 * resultado['total']`
(line 92), computed on numerators/denominators so that it evaluates by
kernel reduction; `bandaBase_iff` below proves it equal to the rational
inequalities. -/
def bandaBase (t v : ℚ) : Bool :=
  (7 * t.num * (v.den : ℤ) ≤ 10 * v.num * (t.den : ℤ)) &&
  (100 * v.num * (t.den : ℤ) ≤ 95 * t.num * (v.den : ℤ))

/-- The fallback scan (lines 91-94): first candidate in the band, if any. -/
def buscarBase (t : ℚ) : List ℚ → Option ℚ
  | [] => none
  | imp :: rest => if bandaBase t imp then some imp else buscarBase t rest

/-- The coherence fallback (lines 89-94):
`if resultado['total'] and not resultado['base_imponible']: ...`. -/
def coherenciaFallback (d : Dict) (imps : List ℚ) : Dict :=
  if truthyVal (dictGetD d "total") && !truthyVal (dictGetD d "base_imponible") then
    match buscarBase ((dictGetD d "total").getD 0) imps with
    | some v => dictSet d "base_imponible" (some v)
    | none => d
  else d

/-- Body of `extraer_importes_universal` applied to the trailing window. -/
def importesDeZona (zona : List Char) : Dict :=
  coherenciaFallback (aplicarPatrones zona resultadoInicial patrones_universal)
    (importes_normalizados zona)

/-- `extraer_importes_universal` (lines 53-96). -/
def extraer_importes_universal (texto : List Char) : Dict :=
  importesDeZona (zona_resumen texto)

/-! ### `extraer_datos_factura_completo` (extractor.py lines 98-122) -/

/-- `nombre_fichero.replace('.pdf', '')` (line 108): remove every
occurrence of `.pdf`, scanning left to right. -/
def quitarPdf : List Char → List Char
  | '.' :: 'p' :: 'd' :: 'f' :: t => quitarPdf t
  | c :: t => c :: quitarPdf t
  | [] => []

/-- `numero_match` (lines 105-107): the three searches chained with `or`. -/
def numero_match (texto : List Char) : Option (List Char) :=
  (reSearch preNumero1 (grabPlus esWord) texto).orElse fun _ =>
  (reSearch preNumero2 (grabPlus esWord) texto).orElse fun _ =>
  reSearch preNumero3 (grabPlus esWord) texto

/-- `fecha_match` (line 111). -/
def fecha_match (texto : List Char) : Option (List Char) :=
  reSearch preFecha grabFecha texto

/-- `nif_match` (line 119). -/
def nif_match (texto : List Char) : Option (List Char) :=
  reSearch preNif grabNif texto

/-- The record `datos` (lines 99-102), with the fixed keys of the source. -/
structure Datos where
  numero_factura : List Char
  fecha_factura : List Char
  proveedor : List Char
  cliente : List Char
  base_imponible : Option ℚ
  iva : Option ℚ
  total : Option ℚ
  nombre_fichero : List Char
deriving DecidableEq

/-- `extraer_datos_factura_completo` (lines 98-122).  `datos.update(importes)`
copies the three keys of the amounts dict onto the record
(`claves_importes` below proves these are exactly the keys present). -/
def extraer_datos_factura_completo (texto nombre_fichero : List Char) : Datos :=
  { numero_factura :=
      match numero_match texto with
      | some g => normalizar_numero g
      | none => quitarPdf nombre_fichero
    fecha_factura :=
      match fecha_match texto with
      | some g => normalizar_fecha g
      | none => []
    proveedor :=
      match nif_match texto with
      | some g => g.take 50
      | none => []
    cliente := []
    base_imponible := dictGetD (extraer_importes_universal texto) "base_imponible"
    iva := dictGetD (extraer_importes_universal texto) "iva"
    total := dictGetD (extraer_importes_universal texto) "total"
    nombre_fichero := nombre_fichero }

/-- The spec's words for the invoice-number fallback ("the filename with its
extension removed"): strip the last dot and what follows it, when a dot is
present.  This is the spec-side reading compared against `quitarPdf`. -/
def quitarExtension_spec (nombre : List Char) : List Char :=
  if '.' ∈ nombre then
    ((nombre.reverse.dropWhile (fun c => !(c = '.'))).drop 1).reverse
  else nombre

/-- The pattern-step result of the amount extractor, before the fallback. -/
def patronesResultado (texto : List Char) : Dict :=
  aplicarPatrones (zona_resumen texto) resultadoInicial patrones_universal

/-- The end-to-end scenario text of the spec. -/
def textoC1 : List Char :=
  ("Factura: A123\nFecha de factura: 01/02/2024\nBase imponible: 80,00\n" ++
   "IVA: 16,80\nTotal: 96,80\nCIF: B12345678").toList

/-- Fallback-activation text: total with a bare in-band token. -/
def textoC2a : List Char := "Total: 100,00\n85,00".toList

/-- Fallback text with a bare below-band token. -/
def textoC2b : List Char := "Total: 100,00\n50,00".toList

/-- Pattern-priority text: an earlier and a later total label. -/
def textoC3 : List Char := "Total: 100,00 TOTAL: 200,00".toList

/-- Zero-amount text: a label capturing `0,00` leaves the field unfilled and
a later pattern may still fill it. -/
def textoC10 : List Char := "Subtotal: 0,00 (base imponible) 30,00".toList

/-! ## Helper lemmas -/

theorem dictGetD_dictSet_self (d : Dict) (k : String) (v : Option ℚ) :
    dictGetD (dictSet d k v) k = v := by
  induction d with
  | nil => simp [dictSet, dictGetD]
  | cons e t ih =>
      by_cases h : e.1 = k
      · simp [dictSet, dictGetD, h]
      · simp [dictSet, dictGetD, h, ih]

theorem dictGetD_dictSet_ne (d : Dict) {k k' : String} (v : Option ℚ)
    (h : k' ≠ k) : dictGetD (dictSet d k v) k' = dictGetD d k' := by
  induction d with
  | nil =>
      simp only [dictSet, dictGetD]
      rw [if_neg (fun he => h he.symm)]
  | cons e t ih =>
      by_cases he : e.1 = k
      · have hek' : e.1 ≠ k' := fun hh => h (hh.symm.trans he)
        simp only [dictSet, if_pos he, dictGetD]
        rw [if_neg (fun hk => h hk.symm), if_neg hek']
      · simp only [dictSet, if_neg he, dictGetD]
        by_cases he' : e.1 = k'
        · rw [if_pos he', if_pos he']
        · rw [if_neg he', if_neg he', ih]

theorem claves_dictSet (d : Dict) (k : String) (v : Option ℚ) :
    k ∈ claves d → claves (dictSet d k v) = claves d := by
  induction d with
  | nil => intro h; simp [claves] at h
  | cons e t ih =>
      intro h
      by_cases he : e.1 = k
      · simp [dictSet, if_pos he, claves, he]
      · have ht : k ∈ claves t := by
          have h2 : k = e.1 ∨ k ∈ claves t := by simpa [claves] using h
          rcases h2 with h1 | h1
          · exact absurd h1.symm he
          · exact h1
        have h3 := ih ht
        simp only [claves] at h3
        simp only [dictSet, if_neg he, claves, List.map_cons, h3]

/-- Values stored by the pattern loop are always truthy, hence never `0`. -/
def sinCeros (d : Dict) : Prop := ∀ k, dictGetD d k ≠ some 0

theorem resultadoInicial_sinCeros : sinCeros resultadoInicial := by
  intro k
  simp only [resultadoInicial, dictGetD]
  split_ifs <;> simp

theorem truthyVal_some_iff (q : ℚ) : truthyVal (some q) = true ↔ q ≠ 0 := by
  simp [truthyVal]

theorem pasoPatron_sinCeros (zona : List Char) (d : Dict) (pc : Regex × String)
    (h : sinCeros d) : sinCeros (pasoPatron zona d pc) := by
  unfold pasoPatron
  cases reSearch pc.1 (grabPlus esImpChar) zona with
  | none => exact h
  | some g =>
      simp only
      split
      · exact h
      · split
        · next hval =>
            intro k
            rcases hv : normalizar_importe g with _ | q
            · rw [hv] at hval; simp [truthyVal] at hval
            · rw [hv] at hval
              have hq : q ≠ 0 := (truthyVal_some_iff q).mp hval
              by_cases hk : k = pc.2
              · subst hk
                rw [dictGetD_dictSet_self]
                simp [hq]
              · rw [dictGetD_dictSet_ne _ _ hk]
                exact h k
        · exact h

theorem aplicarPatrones_sinCeros (zona : List Char) (ps : List (Regex × String))
    (d : Dict) (h : sinCeros d) : sinCeros (aplicarPatrones zona d ps) := by
  induction ps generalizing d with
  | nil => exact h
  | cons pc rest ih =>
      exact ih (pasoPatron zona d pc) (pasoPatron_sinCeros zona d pc h)

/-- A field already holding a truthy value is never overwritten by a step. -/
theorem pasoPatron_preserva (zona : List Char) (d : Dict) (pc : Regex × String)
    {campo : String} {v : ℚ} (hv : v ≠ 0)
    (h : dictGetD d campo = some v) :
    dictGetD (pasoPatron zona d pc) campo = some v := by
  unfold pasoPatron
  cases reSearch pc.1 (grabPlus esImpChar) zona with
  | none => exact h
  | some g =>
      simp only
      by_cases hk : campo = pc.2
      · subst hk
        rw [h, (truthyVal_some_iff v).mpr hv]
        simp [h]
      · split
        · exact h
        · split
          · rw [dictGetD_dictSet_ne _ _ hk]; exact h
          · exact h

theorem aplicarPatrones_preserva (zona : List Char) (ps : List (Regex × String))
    (d : Dict) {campo : String} {v : ℚ} (hv : v ≠ 0)
    (h : dictGetD d campo = some v) :
    dictGetD (aplicarPatrones zona d ps) campo = some v := by
  induction ps generalizing d with
  | nil => exact h
  | cons pc rest ih =>
      exact ih (pasoPatron zona d pc) (pasoPatron_preserva zona d pc hv h)

theorem claves_pasoPatron (zona : List Char) (d : Dict) (pc : Regex × String)
    (h : pc.2 ∈ claves d) : claves (pasoPatron zona d pc) = claves d := by
  unfold pasoPatron
  cases reSearch pc.1 (grabPlus esImpChar) zona with
  | none => rfl
  | some g =>
      simp only
      split
      · rfl
      · split
        · exact claves_dictSet d pc.2 _ h
        · rfl

theorem claves_aplicarPatrones (zona : List Char) (ps : List (Regex × String))
    (d : Dict) (L : List String) (hd : claves d = L)
    (hps : ∀ pc ∈ ps, pc.2 ∈ L) :
    claves (aplicarPatrones zona d ps) = L := by
  induction ps generalizing d with
  | nil => exact hd
  | cons pc rest ih =>
      have hpc : pc.2 ∈ claves d := by rw [hd]; exact hps pc (by simp)
      exact ih (pasoPatron zona d pc)
        ((claves_pasoPatron zona d pc hpc).trans hd)
        (fun q hq => hps q (by simp [hq]))

theorem coherenciaFallback_getD_ne (d : Dict) (imps : List ℚ) {campo : String}
    (h : campo ≠ "base_imponible") :
    dictGetD (coherenciaFallback d imps) campo = dictGetD d campo := by
  unfold coherenciaFallback
  split
  · split
    · rw [dictGetD_dictSet_ne _ _ h]
    · rfl
  · rfl

theorem coherenciaFallback_base_truthy (d : Dict) (imps : List ℚ)
    (h : truthyVal (dictGetD d "base_imponible") = true) :
    coherenciaFallback d imps = d := by
  unfold coherenciaFallback
  rw [h]
  simp

theorem coherenciaFallback_total_falsy (d : Dict) (imps : List ℚ)
    (h : truthyVal (dictGetD d "total") = false) :
    coherenciaFallback d imps = d := by
  unfold coherenciaFallback
  rw [h]
  simp

theorem buscarBase_eq_find (t : ℚ) (l : List ℚ) :
    buscarBase t l = l.find? (bandaBase t) := by
  induction l with
  | nil => rfl
  | cons imp rest ih =>
      by_cases h : bandaBase t imp
      · simp [buscarBase, List.find?, h]
      · simp only [Bool.not_eq_true] at h
        simp [buscarBase, List.find?, h, ih]

theorem bandaBase_iff (t v : ℚ) :
    bandaBase t v = true ↔ ((0.7 : ℚ) * t ≤ v ∧ v ≤ (0.95 : ℚ) * t) := by
  have ht : (0 : ℚ) < (t.den : ℚ) := by exact_mod_cast t.den_pos
  have hv : (0 : ℚ) < (v.den : ℚ) := by exact_mod_cast v.den_pos
  have key1 : ((0.7 : ℚ) * t ≤ v) ↔
      (7 * t.num * (v.den : ℤ) ≤ 10 * v.num * (t.den : ℤ)) := by
    rw [show (0.7 : ℚ) = 7 / 10 by norm_num]
    conv_lhs => rw [← Rat.num_div_den t, ← Rat.num_div_den v]
    rw [div_mul_div_comm, div_le_div_iff₀ (by positivity) hv]
    rw [show ((7 : ℚ) * t.num * v.den ≤ v.num * (10 * t.den)) ↔
        ((7 * t.num * (v.den : ℤ) : ℤ) : ℚ) ≤ ((10 * v.num * (t.den : ℤ) : ℤ) : ℚ) by
      push_cast; constructor <;> intro h <;> linarith]
    exact_mod_cast Iff.rfl
  have key2 : (v ≤ (0.95 : ℚ) * t) ↔
      (100 * v.num * (t.den : ℤ) ≤ 95 * t.num * (v.den : ℤ)) := by
    rw [show (0.95 : ℚ) = 95 / 100 by norm_num]
    conv_lhs => rw [← Rat.num_div_den t, ← Rat.num_div_den v]
    rw [div_mul_div_comm, div_le_div_iff₀ hv (by positivity)]
    rw [show ((v.num : ℚ) * (100 * t.den) ≤ 95 * t.num * v.den) ↔
        ((100 * v.num * (t.den : ℤ) : ℤ) : ℚ) ≤ ((95 * t.num * (v.den : ℤ) : ℤ) : ℚ) by
      push_cast; constructor <;> intro h <;> linarith]
    exact_mod_cast Iff.rfl
  simp [bandaBase, key1, key2]

example : normalizar_importe "96,80".toList = some (mkRat 484 5) := by decide
example : normalizar_importe "0,00".toList = some (mkRat 0 1) := by decide
example : normalizar_importe "".toList = none := by decide
example : normalizar_numero "A123".toList = "A123".toList := by decide

theorem truthyVal_false_eq_none {o : Option ℚ} (h1 : truthyVal o = false)
    (h2 : o ≠ some 0) : o = none := by
  cases o with
  | none => rfl
  | some q =>
      simp only [truthyVal, Bool.not_eq_false', decide_eq_true_eq] at h1
      exact absurd (by rw [h1]) h2

theorem bandaBase_eq_decide (t v : ℚ) :
    bandaBase t v = decide ((0.7 : ℚ) * t ≤ v ∧ v ≤ (0.95 : ℚ) * t) := by
  rcases h : bandaBase t v with _ | _
  · symm
    rw [decide_eq_false_iff_not]
    intro hc
    rw [(bandaBase_iff t v).mpr hc] at h
    cases h
  · symm
    rw [decide_eq_true_eq]
    exact (bandaBase_iff t v).mp h

theorem patronesResultado_sinCeros (texto : List Char) :
    sinCeros (patronesResultado texto) :=
  aplicarPatrones_sinCeros _ _ _ resultadoInicial_sinCeros

theorem extraer_eq_coherencia (texto : List Char) :
    extraer_importes_universal texto =
      coherenciaFallback (patronesResultado texto)
        (importes_normalizados (zona_resumen texto)) := rfl

theorem aplicarPatrones_append (zona : List Char) (d : Dict)
    (ps₁ ps₂ : List (Regex × String)) :
    aplicarPatrones zona d (ps₁ ++ ps₂) =
      aplicarPatrones zona (aplicarPatrones zona d ps₁) ps₂ :=
  List.foldl_append _ _ _ _

theorem claves_coherenciaFallback (d : Dict) (imps : List ℚ)
    (h : "base_imponible" ∈ claves d) :
    claves (coherenciaFallback d imps) = claves d := by
  unfold coherenciaFallback
  split
  · split
    · exact claves_dictSet _ _ _ h
    · rfl
  · rfl

theorem zona_resumen_append (pre t : List Char) (h : 3000 ≤ t.length) :
    zona_resumen (pre ++ t) = zona_resumen t := by
  unfold zona_resumen
  rw [List.length_append,
    show pre.length + t.length - 3000 = pre.length + (t.length - 3000) by omega,
    List.drop_append]

theorem zona_resumen_corta (t : List Char) (h : t.length ≤ 3000) :
    zona_resumen t = t := by
  unfold zona_resumen
  rw [show t.length - 3000 = 0 by omega, List.drop_zero]

theorem esWord_no_espacio (c : Char) (h : esWord c = true) : esEspacio c = false := by
  rcases hc : esEspacio c with _ | _
  · rfl
  · exfalso
    have hb : c = ' ' ∨ c = '\t' ∨ c = '\n' ∨ c = '\x0d' ∨ c = '\x0b' ∨ c = '\x0c' := by
      simpa [esEspacio, or_assoc] using hc
    rcases hb with rfl | rfl | rfl | rfl | rfl | rfl <;> exact absurd h (by decide)

theorem dropWhile_de_no (p : Char → Bool) (l : List Char)
    (h : ∀ c ∈ l, p c = false) : l.dropWhile p = l := by
  cases l with
  | nil => rfl
  | cons c t => simp [List.dropWhile_cons, h c (by simp)]

theorem pyStrip_palabras (g : List Char) (hw : ∀ c ∈ g, esWord c = true) :
    pyStrip g = g := by
  unfold pyStrip
  rw [dropWhile_de_no _ _ (fun c hc => esWord_no_espacio c (hw c hc)),
    dropWhile_de_no _ _
      (fun c hc => esWord_no_espacio c (hw c (List.mem_reverse.mp hc))),
    List.reverse_reverse]

theorem normalizar_numero_palabras (g : List Char) (hne : g ≠ [])
    (hw : ∀ c ∈ g, esWord c = true) : normalizar_numero g = g := by
  unfold normalizar_numero
  rw [if_neg hne, pyStrip_palabras g hw, List.filter_eq_self.mpr]
  intro c hc
  simp [hw c hc]

theorem primerResultado_some {α β : Type} (f : α → Option β) :
    ∀ {l : List α} {b : β}, primerResultado f l = some b → ∃ a ∈ l, f a = some b := by
  intro l
  induction l with
  | nil => intro b h; simp [primerResultado] at h
  | cons a t ih =>
      intro b h
      rw [primerResultado] at h
      split at h
      · next hfa => exact ⟨a, by simp, hfa.trans h⟩
      · next hfa =>
          obtain ⟨x, hx, hfx⟩ := ih h
          exact ⟨x, by simp [hx], hfx⟩

theorem reSearch_some (pre : Regex) (grab : List Char → Option (List Char)) :
    ∀ {s g : List Char}, reSearch pre grab s = some g → ∃ r, grab r = some g := by
  intro s
  induction s with
  | nil =>
      intro g h
      rw [reSearch] at h
      unfold searchAt at h
      obtain ⟨a, _, ha⟩ := primerResultado_some grab h
      exact ⟨a, ha⟩
  | cons c t ih =>
      intro g h
      rw [reSearch] at h
      split at h
      · next hs =>
          unfold searchAt at hs
          obtain ⟨a, _, ha⟩ := primerResultado_some grab (hs.trans h)
          exact ⟨a, ha⟩
      · next hs => exact ih h

theorem grabPlus_some {p : Char → Bool} {s g : List Char}
    (h : grabPlus p s = some g) : g ≠ [] ∧ ∀ c ∈ g, p c = true := by
  unfold grabPlus at h
  by_cases he : (s.takeWhile p).isEmpty
  · rw [if_pos he] at h
    cases h
  · rw [if_neg he] at h
    injection h with h
    subst h
    exact ⟨fun hnil => he (by simp [hnil]), fun c hc => List.mem_takeWhile_imp hc⟩

theorem numero_match_some {texto g : List Char} (h : numero_match texto = some g) :
    ∃ r, grabPlus esWord r = some g := by
  unfold numero_match at h
  cases h1 : reSearch preNumero1 (grabPlus esWord) texto with
  | some g1 =>
      rw [h1] at h
      simp only [Option.orElse] at h
      exact reSearch_some _ _ (h1.trans h)
  | none =>
      rw [h1] at h
      simp only [Option.orElse] at h
      cases h2 : reSearch preNumero2 (grabPlus esWord) texto with
      | some g2 =>
          rw [h2] at h
          simp only [Option.orElse] at h
          exact reSearch_some _ _ (h2.trans h)
      | none =>
          rw [h2] at h
          simp only [Option.orElse] at h
          exact reSearch_some _ _ h

/-! ## Claims -/

/-- C1, counterexample: on the end-to-end scenario text the supplier pattern
`(?:CIF|NIF|IVA:\s*)([A-Z]\d{8}[A-Z]?)` does NOT match `"CIF: B12345678"`
(no separator is allowed after `CIF`), so the returned `proveedor`
(supplier_id) is the empty string, not `"B12345678"` as the claim states. -/
theorem claim_C1_contraejemplo :
    (extraer_datos_factura_completo textoC1 "factura.pdf".toList).proveedor = [] ∧
    ("" : String).toList ≠ "B12345678".toList := by
  constructor
  · decide
  · decide

/-- C1 as amended: for the end-to-end scenario text and any filename, the
Field Extractor returns invoice number `"A123"`, date `"01/02/2024"`,
base 80.00, tax 16.80, total 96.80, customer `""`, and supplier `""`
(empty: the tax-identifier pattern requires the identifier to follow the
`CIF`/`NIF` label immediately, which `"CIF: B12345678"` does not). -/
theorem claim_C1_extraccion (nombre : List Char) :
    extraer_datos_factura_completo textoC1 nombre =
      { numero_factura := "A123".toList,
        fecha_factura := "01/02/2024".toList,
        proveedor := [],
        cliente := [],
        base_imponible := some 80,
        iva := some 16.8,
        total := some 96.8,
        nombre_fichero := nombre } := by
  have h80 : (80 : ℚ) = mkRat 80 1 := by norm_num [Rat.mkRat_eq_div]
  have h168 : (16.8 : ℚ) = mkRat 84 5 := by norm_num [Rat.mkRat_eq_div]
  have h968 : (96.8 : ℚ) = mkRat 484 5 := by norm_num [Rat.mkRat_eq_div]
  have hnum : numero_match textoC1 = some "A123".toList := by decide
  have hfec : fecha_match textoC1 = some "01/02/2024".toList := by decide
  have hnif : nif_match textoC1 = none := by decide
  have himp : extraer_importes_universal textoC1 =
      [("total", some (mkRat 484 5)), ("base_imponible", some (mkRat 80 1)),
       ("iva", some (mkRat 84 5))] := by decide
  unfold extraer_datos_factura_completo
  rw [hnum, hfec, hnif, himp, h80, h168, h968]
  rw [Datos.mk.injEq]
  exact ⟨by show normalizar_numero "A123".toList = "A123".toList; decide,
    by show normalizar_fecha "01/02/2024".toList = "01/02/2024".toList; decide,
    rfl, rfl, by decide, by decide, by decide, rfl⟩

/-- C2: whenever the label patterns leave a truthy total and a falsy base,
the final base amount is exactly the first candidate of the trailing-window
token pool lying in the band `0.7·total ≤ v ≤ 0.95·total` (`List.find?`
preserves order of appearance), and null when there is none; the fallback
never touches `iva` (or `total`).  On the concrete texts, the bare token
`85,00` is selected for a total of `100,00` while `50,00` never is. -/
theorem claim_C2_fallback (texto : List Char) :
    (truthyVal (dictGetD (patronesResultado texto) "total") = true →
     truthyVal (dictGetD (patronesResultado texto) "base_imponible") = false →
     dictGetD (extraer_importes_universal texto) "base_imponible" =
       (importes_normalizados (zona_resumen texto)).find? (fun v =>
         decide ((0.7 : ℚ) * ((dictGetD (patronesResultado texto) "total").getD 0) ≤ v ∧
           v ≤ (0.95 : ℚ) * ((dictGetD (patronesResultado texto) "total").getD 0)))) ∧
    dictGetD (extraer_importes_universal texto) "iva" =
      dictGetD (patronesResultado texto) "iva" ∧
    dictGetD (extraer_importes_universal texto) "total" =
      dictGetD (patronesResultado texto) "total" ∧
    dictGetD (extraer_importes_universal textoC2a) "base_imponible" = some 85 ∧
    dictGetD (extraer_importes_universal textoC2b) "base_imponible" = none := by
  refine ⟨?_, ?_, ?_, ?_, ?_⟩
  · intro h1 h2
    rw [extraer_eq_coherencia]
    unfold coherenciaFallback
    rw [h1, h2]
    simp only [Bool.not_false, Bool.and_self, if_true]
    rw [buscarBase_eq_find,
      show bandaBase ((dictGetD (patronesResultado texto) "total").getD 0) =
        (fun v => decide
          ((0.7 : ℚ) * ((dictGetD (patronesResultado texto) "total").getD 0) ≤ v ∧
            v ≤ (0.95 : ℚ) * ((dictGetD (patronesResultado texto) "total").getD 0)))
        from funext (bandaBase_eq_decide _)]
    cases hf : (importes_normalizados (zona_resumen texto)).find? _ with
    | some v => exact dictGetD_dictSet_self _ _ _
    | none =>
        exact truthyVal_false_eq_none h2 (patronesResultado_sinCeros texto "base_imponible")
  · rw [extraer_eq_coherencia]
    exact coherenciaFallback_getD_ne _ _ (by decide)
  · rw [extraer_eq_coherencia]
    exact coherenciaFallback_getD_ne _ _ (by decide)
  · rw [show (85 : ℚ) = mkRat 85 1 by norm_num [Rat.mkRat_eq_div]]
    decide
  · decide

/-- C3: the label patterns run in fixed list order and a field resolved by
the patterns of any earlier prefix of the list to a non-null value keeps
exactly that value through all later patterns and through the fallback;
the earlier `"Total: 100,00"` wins over the later `"TOTAL: 200,00"`. -/
theorem claim_C3_prioridad (texto : List Char) (ps₁ ps₂ : List (Regex × String))
    (campo : String) (v : ℚ)
    (hsplit : patrones_universal = ps₁ ++ ps₂)
    (h : dictGetD (aplicarPatrones (zona_resumen texto) resultadoInicial ps₁)
      campo = some v) :
    dictGetD (extraer_importes_universal texto) campo = some v := by
  have hv : v ≠ 0 := by
    intro h0
    subst h0
    exact aplicarPatrones_sinCeros _ _ _ resultadoInicial_sinCeros campo h
  have h2 : dictGetD (patronesResultado texto) campo = some v := by
    unfold patronesResultado
    rw [hsplit, aplicarPatrones_append]
    exact aplicarPatrones_preserva _ ps₂ _ hv h
  rw [extraer_eq_coherencia]
  by_cases hc : campo = "base_imponible"
  · subst hc
    rw [coherenciaFallback_base_truthy _ _
      (by rw [h2]; exact (truthyVal_some_iff v).mpr hv)]
    exact h2
  · rw [coherenciaFallback_getD_ne _ _ hc]
    exact h2

/-- C3 witness: on `"Total: 100,00 TOTAL: 200,00"` the first pattern alone
already resolves total to 100.00, so the whole extractor returns 100.00 and
never 200.00. -/
theorem claim_C3_prioridad_witness :
    dictGetD (aplicarPatrones (zona_resumen textoC3) resultadoInicial
      [(preTotal1, "total")]) "total" = some (mkRat 100 1) ∧
    dictGetD (extraer_importes_universal textoC3) "total" = some (mkRat 100 1) ∧
    dictGetD (extraer_importes_universal textoC3) "total" ≠ some (mkRat 200 1) :=
  ⟨by decide,
   claim_C3_prioridad textoC3 [(preTotal1, "total")]
     [(preTotal2, "total"), (preBase1, "base_imponible"), (preBase2, "base_imponible"),
      (preIva1, "iva"), (preIva2, "iva"), (preIva3, "iva")] "total" (mkRat 100 1)
     rfl (by decide),
   by decide⟩

/-- C2 witness: on the fallback-activation text the hypotheses hold
concretely and the theorem yields the band characterization. -/
theorem claim_C2_fallback_witness :
    truthyVal (dictGetD (patronesResultado textoC2a) "total") = true ∧
    truthyVal (dictGetD (patronesResultado textoC2a) "base_imponible") = false ∧
    dictGetD (extraer_importes_universal textoC2a) "base_imponible" =
      (importes_normalizados (zona_resumen textoC2a)).find? (fun v =>
        decide ((0.7 : ℚ) * ((dictGetD (patronesResultado textoC2a) "total").getD 0) ≤ v ∧
          v ≤ (0.95 : ℚ) * ((dictGetD (patronesResultado textoC2a) "total").getD 0))) :=
  ⟨by decide, by decide, (claim_C2_fallback textoC2a).1 (by decide) (by decide)⟩

/-- C4: the amount extractor reads only the trailing 3000-character window:
prepending anything before a text of length at least 3000 does not change
the result (so matches and tokens wholly before the window contribute
nothing), and for texts up to 3000 characters the window is the whole text. -/
theorem claim_C4_ventana :
    (∀ pre t : List Char, 3000 ≤ t.length →
      extraer_importes_universal (pre ++ t) = extraer_importes_universal t) ∧
    (∀ t : List Char, t.length ≤ 3000 → zona_resumen t = t) := by
  constructor
  · intro pre t h
    unfold extraer_importes_universal
    rw [zona_resumen_append pre t h]
  · exact zona_resumen_corta

/-- C4 witness: a total label placed entirely before a 3000-character tail
is invisible, and a short text is its own window. -/
theorem claim_C4_ventana_witness :
    extraer_importes_universal ("Total: 999,99 ".toList ++ List.replicate 3000 ' ') =
      extraer_importes_universal (List.replicate 3000 ' ') ∧
    zona_resumen "ab".toList = "ab".toList :=
  ⟨claim_C4_ventana.1 _ _ (le_of_eq (List.length_replicate 3000 ' ').symm),
   claim_C4_ventana.2 _ (by decide)⟩

/-- C5, counterexample: with empty text and empty filename both
`numero_factura` and `nombre_fichero` come out empty, refuting the claim
that they are non-empty for every filename. -/
theorem claim_C5_contraejemplo :
    ¬ ((extraer_datos_factura_completo [] []).numero_factura ≠ [] ∧
       (extraer_datos_factura_completo [] []).nombre_fichero ≠ []) := by
  intro h
  exact h.1 (by decide)

/-- C5 as amended: whenever the filename with its `.pdf` occurrences removed
is non-empty, the returned `numero_factura` and `nombre_fichero` are both
non-empty (a matched invoice-number is a non-empty word-token kept intact by
`normalizar_numero`; otherwise the filename fallback applies). -/
theorem claim_C5_no_vacios (texto nombre : List Char)
    (h : quitarPdf nombre ≠ []) :
    (extraer_datos_factura_completo texto nombre).numero_factura ≠ [] ∧
    (extraer_datos_factura_completo texto nombre).nombre_fichero ≠ [] := by
  constructor
  · show (match numero_match texto with
      | some g => normalizar_numero g
      | none => quitarPdf nombre) ≠ []
    cases hm : numero_match texto with
    | some g =>
        obtain ⟨r, hr⟩ := numero_match_some hm
        obtain ⟨hne, hw⟩ := grabPlus_some hr
        simpa [normalizar_numero_palabras g hne hw] using hne
    | none => simpa using h
  · show nombre ≠ []
    intro hn
    subst hn
    exact h rfl

/-- C5 witness: concrete instantiation with filename `"x.pdf"`. -/
theorem claim_C5_no_vacios_witness :
    quitarPdf "x.pdf".toList ≠ [] ∧
    ((extraer_datos_factura_completo [] "x.pdf".toList).numero_factura ≠ [] ∧
     (extraer_datos_factura_completo [] "x.pdf".toList).nombre_fichero ≠ []) :=
  ⟨by decide, claim_C5_no_vacios [] _ (by decide)⟩

/-- C6: the three normalizers are total functions of the embedding (no
exceptional control flow exists: parse failure is the `none` value), and
empty/absent input (falsy in Python, modelled by the empty string) yields
the empty string, the empty string, and null respectively. -/
theorem claim_C6_normalizadores :
    normalizar_numero [] = [] ∧ normalizar_fecha [] = [] ∧
    normalizar_importe [] = none :=
  ⟨rfl, rfl, rfl⟩

/-- C7: for every text, the amounts dict has exactly the three keys
`total`, `base_imponible`, `iva` in insertion order, each holding an
optional number; and in the record assembler a pattern no-match degrades to
an empty field (date and supplier shown; the values of the three amount
keys are optional by type). -/
theorem claim_C7_forma (texto nombre : List Char) :
    claves (extraer_importes_universal texto) = ["total", "base_imponible", "iva"] ∧
    (fecha_match texto = none →
      (extraer_datos_factura_completo texto nombre).fecha_factura = []) ∧
    (nif_match texto = none →
      (extraer_datos_factura_completo texto nombre).proveedor = []) := by
  refine ⟨?_, ?_, ?_⟩
  · have hk : claves (patronesResultado texto) = ["total", "base_imponible", "iva"] := by
      refine claves_aplicarPatrones _ _ _ _ rfl ?_
      intro pc hpc
      simp only [patrones_universal, List.mem_cons, List.not_mem_nil, or_false] at hpc
      rcases hpc with rfl | rfl | rfl | rfl | rfl | rfl | rfl <;> simp
    rw [extraer_eq_coherencia,
      claves_coherenciaFallback _ _ (by rw [hk]; simp), hk]
  · intro hf
    show (match fecha_match texto with
      | some g => normalizar_fecha g
      | none => []) = []
    rw [hf]
  · intro hn
    show (match nif_match texto with
      | some g => g.take 50
      | none => []) = []
    rw [hn]

/-- C7 witness: concrete instantiation on the empty text. -/
theorem claim_C7_forma_witness :
    claves (extraer_importes_universal []) = ["total", "base_imponible", "iva"] ∧
    fecha_match [] = none ∧
    (extraer_datos_factura_completo [] "a.pdf".toList).fecha_factura = [] ∧
    nif_match [] = none ∧
    (extraer_datos_factura_completo [] "a.pdf".toList).proveedor = [] :=
  ⟨(claim_C7_forma [] "a.pdf".toList).1, by decide,
   (claim_C7_forma [] "a.pdf".toList).2.1 (by decide), by decide,
   (claim_C7_forma [] "a.pdf".toList).2.2 (by decide)⟩

/-- C9, counterexample: with no pattern match and filename `"doc.txt"` the
code returns the filename unchanged (`replace('.pdf','')` touches only
`.pdf`), not the filename with its extension removed. -/
theorem claim_C9_contraejemplo :
    numero_match [] = none ∧
    (extraer_datos_factura_completo [] "doc.txt".toList).numero_factura =
      "doc.txt".toList ∧
    quitarExtension_spec "doc.txt".toList = "doc".toList ∧
    "doc.txt".toList ≠ "doc".toList := by
  refine ⟨by decide, by decide, by decide, by decide⟩

/-- C9 as amended: when none of the three invoice-number patterns matches,
the returned `numero_factura` is the filename with every occurrence of the
substring `.pdf` removed. -/
theorem claim_C9_reserva (texto nombre : List Char)
    (h1 : reSearch preNumero1 (grabPlus esWord) texto = none)
    (h2 : reSearch preNumero2 (grabPlus esWord) texto = none)
    (h3 : reSearch preNumero3 (grabPlus esWord) texto = none) :
    (extraer_datos_factura_completo texto nombre).numero_factura =
      quitarPdf nombre := by
  have hm : numero_match texto = none := by
    unfold numero_match
    rw [h1, h2, h3]
    rfl
  show (match numero_match texto with
    | some g => normalizar_numero g
    | none => quitarPdf nombre) = quitarPdf nombre
  rw [hm]

/-- C9 witness: the empty text matches no pattern and filename
`"INV-2024-07.pdf"` yields `"INV-2024-07"`. -/
theorem claim_C9_reserva_witness :
    reSearch preNumero1 (grabPlus esWord) [] = none ∧
    reSearch preNumero2 (grabPlus esWord) [] = none ∧
    reSearch preNumero3 (grabPlus esWord) [] = none ∧
    (extraer_datos_factura_completo [] "INV-2024-07.pdf".toList).numero_factura =
      "INV-2024-07".toList :=
  ⟨by decide, by decide, by decide,
   (claim_C9_reserva [] "INV-2024-07.pdf".toList (by decide) (by decide)
     (by decide)).trans (by decide)⟩

/-- C10: an amount normalizing to exactly 0 is treated as absent throughout:
a pattern step whose capture normalizes to 0 leaves the dict unchanged (so a
later pattern may still fill the field, as the concrete text shows), zeros
are excluded from the fallback candidate pool, and a total of 0 never
activates the fallback. -/
theorem claim_C10_cero :
    (∀ (zona : List Char) (d : Dict) (pc : Regex × String) (g : List Char),
      reSearch pc.1 (grabPlus esImpChar) zona = some g →
      normalizar_importe g = some 0 →
      pasoPatron zona d pc = d) ∧
    (∀ (zona : List Char) (v : ℚ), v ∈ importes_normalizados zona → v ≠ 0) ∧
    (∀ (d : Dict) (imps : List ℚ), dictGetD d "total" = some 0 →
      coherenciaFallback d imps = d) ∧
    dictGetD (extraer_importes_universal textoC10) "base_imponible" =
      some 30 := by
  refine ⟨?_, ?_, ?_, ?_⟩
  · intro zona d pc g hs hz
    unfold pasoPatron
    rw [hs]
    simp only
    split
    · rfl
    · rw [hz]
      simp [truthyVal]
  · intro zona v hv
    unfold importes_normalizados at hv
    rw [List.mem_filterMap] at hv
    obtain ⟨x, _, hx⟩ := hv
    split at hx
    · split at hx
      · cases hx
      · next hw =>
          injection hx with hx
          subst hx
          exact hw
    · cases hx
  · intro d imps h
    apply coherenciaFallback_total_falsy
    rw [h]
    simp [truthyVal]
  · rw [show (30 : ℚ) = mkRat 30 1 by norm_num [Rat.mkRat_eq_div]]
    decide

/-- C10 witness: on `"Total: 0,00"` the first total pattern captures `0,00`
and leaves the dict unchanged; a dict whose total is 0 passes through the
fallback untouched. -/
theorem claim_C10_cero_witness :
    reSearch preTotal1 (grabPlus esImpChar) "Total: 0,00".toList = some "0,00".toList ∧
    pasoPatron "Total: 0,00".toList resultadoInicial (preTotal1, "total") =
      resultadoInicial ∧
    (mkRat 7 2 : ℚ) ∈ importes_normalizados "3,50".toList ∧ (mkRat 7 2 : ℚ) ≠ 0 ∧
    coherenciaFallback [("total", some 0), ("base_imponible", none), ("iva", none)] [] =
      [("total", some 0), ("base_imponible", none), ("iva", none)] :=
  ⟨by decide,
   claim_C10_cero.1 "Total: 0,00".toList resultadoInicial (preTotal1, "total")
     "0,00".toList (by decide) (by decide),
   by decide,
   claim_C10_cero.2.1 "3,50".toList (mkRat 7 2) (by decide),
   claim_C10_cero.2.2.1 _ [] (by decide)⟩
